import Mathlib

/-!
# Verification of the SoundCloud listening-history aggregator

Shallow embedding of `parser.py` (class `SoundCloudParser`): the recursive
track extractor `_extract_track_data`, the per-file driver `parse_dump_files`,
and the three report generators, together with proofs about the aggregation
behaviour described in the specification.

JSON values as produced by Python's `json.load` are modelled by the inductive
type `Json`; objects keep their key order (association lists), numbers are
modelled as integers.  Python exceptions are modelled explicitly: functions
that can raise return the state built so far together with a success flag.
-/

set_option maxHeartbeats 1000000

namespace Scrap

/-- A JSON value as loaded by Python's `json.load`: objects are association
lists in key order, numbers are modelled as integers. -/
inductive Json where
  | null : Json
  | bool (b : Bool) : Json
  | num (n : Int) : Json
  | str (s : String) : Json
  | arr (xs : List Json) : Json
  | obj (kvs : List (String × Json)) : Json

mutual
/-- Structural equality test on `Json` (used to build decidable equality;
`deriving DecidableEq` does not handle the nested lists). -/
def Json.beq : Json → Json → Bool
  | .null, .null => true
  | .bool a, .bool b => a == b
  | .num a, .num b => a == b
  | .str a, .str b => a == b
  | .arr xs, .arr ys => beqArr xs ys
  | .obj xs, .obj ys => beqObj xs ys
  | _, _ => false

/-- Equality test on lists of JSON values. -/
def beqArr : List Json → List Json → Bool
  | [], [] => true
  | x :: xs, y :: ys => Json.beq x y && beqArr xs ys
  | _, _ => false

/-- Equality test on association lists of JSON values. -/
def beqObj : List (String × Json) → List (String × Json) → Bool
  | [], [] => true
  | (k, v) :: xs, (l, w) :: ys => k == l && Json.beq v w && beqObj xs ys
  | _, _ => false
end

theorem Json.beq_iff :
    ∀ a b : Json, (Json.beq a b = true ↔ a = b) := by
  intro a b
  refine Json.beq.induct
    (fun a b => (Json.beq a b = true ↔ a = b))
    (fun xs ys => (beqObj xs ys = true ↔ xs = ys))
    (fun xs ys => (beqArr xs ys = true ↔ xs = ys))
    ?_ ?_ ?_ ?_ ?_ ?_ ?_ ?_ ?_ ?_ ?_ ?_ ?_ a b
  · simp [Json.beq]
  · intro a b; simp [Json.beq]
  · intro a b; simp [Json.beq]
  · intro a b; simp [Json.beq]
  · intro xs ys ih; simpa [Json.beq] using ih
  · intro xs ys ih; simpa [Json.beq] using ih
  · intro t x h1 h2 h3 h4 h5 h6
    cases t <;> cases x <;> simp_all [Json.beq]
  · simp [beqArr]
  · intro x xs y ys ih1 ih2; simp [beqArr, ih1, ih2]
  · intro t x h1 h2
    cases t with
    | nil =>
      cases x with
      | nil => exact (h1 rfl rfl).elim
      | cons y ys => simp [beqArr]
    | cons z zs =>
      cases x with
      | nil => simp [beqArr]
      | cons y ys => exact (h2 z zs y ys rfl rfl).elim
  · simp [beqObj]
  · intro k v xs l w ys ih1 ih2
    simp [beqObj, ih1, ih2, Prod.ext_iff, and_assoc]
  · intro t x h1 h2
    cases t with
    | nil =>
      cases x with
      | nil => exact (h1 rfl rfl).elim
      | cons q ys => simp [beqObj]
    | cons p zs =>
      cases x with
      | nil => simp [beqObj]
      | cons q ys => exact (h2 p.1 p.2 zs q.1 q.2 ys rfl rfl).elim

instance : DecidableEq Json := fun a b =>
  decidable_of_iff (Json.beq a b = true) (Json.beq_iff a b)

/-- Python truthiness of a JSON value (`if x:`): `None`, `False`, `0`, `""`,
`[]` and `{}` are falsy, everything else is truthy. -/
def truthy : Json → Bool
  | .null => false
  | .bool b => b
  | .num n => n != 0
  | .str s => s != ""
  | .arr xs => !xs.isEmpty
  | .obj kvs => !kvs.isEmpty

/-- First binding of key `k` in an object's association list: models both
`k in d` (via `isSome`) and `d.get(k, default)` (via `getD`) on Python dicts,
whose keys are unique after `json.load`. -/
def lookupKey (kvs : List (String × Json)) (k : String) : Option Json :=
  match kvs with
  | [] => none
  | (l, v) :: rest => if l = k then some v else lookupKey rest k

/-- Python `a or b`: `a` when truthy, else `b`. -/
def pyOr (a b : Json) : Json := if truthy a then a else b

/-- Lookup in an aggregation table keyed by JSON values (Python dict read). -/
def lookupJ {α : Type} (m : List (Json × α)) (k : Json) : Option α :=
  match m with
  | [] => none
  | (l, v) :: rest => if l = k then some v else lookupJ rest k

/-- Python dict assignment `d[k] = v`: replace in place when the key is
present, else append (dicts preserve insertion order). -/
def setJ {α : Type} (m : List (Json × α)) (k : Json) (v : α) : List (Json × α) :=
  match m with
  | [] => [(k, v)]
  | (l, w) :: rest => if l = k then (k, v) :: rest else (l, w) :: setJ rest k v

theorem lookupJ_setJ {α : Type} (m : List (Json × α)) (k x : Json) (v : α) :
    lookupJ (setJ m k v) x = if k = x then some v else lookupJ m x := by
  induction m with
  | nil =>
    by_cases h : k = x <;> simp [setJ, lookupJ, h]
  | cons hd tl ih =>
    obtain ⟨l, w⟩ := hd
    by_cases hl : l = k
    · subst hl
      by_cases h : l = x <;> simp [setJ, lookupJ, h]
    · by_cases h : l = x
      · subst h
        have : ¬ (k = l) := fun hk => hl hk.symm
        simp [setJ, lookupJ, hl, this]
      · simp [setJ, lookupJ, hl, h, ih]

theorem lookupJ_append {α : Type} (m m' : List (Json × α)) (x : Json) :
    lookupJ (m ++ m') x = ((lookupJ m x).or (lookupJ m' x)) := by
  induction m with
  | nil => simp [lookupJ]
  | cons hd tl ih =>
    obtain ⟨l, w⟩ := hd
    by_cases h : l = x <;> simp [lookupJ, h, ih]

/-- Model of a `datetime` value produced by `datetime.fromisoformat`:
calendar fields and the microsecond, plus an optional UTC offset in
microseconds. A datetime with an offset is "aware", one without is "naive".
Every value built here goes through `mkDatetime`, the constructor's range
checks, so the fields of a constructed value are always in range. -/
structure PyDateTime where
  year : Int
  month : Int
  day : Int
  hour : Int
  minute : Int
  second : Int
  microsecond : Int
  tzOffsetUs : Option Int
deriving DecidableEq

/-- Numeric value of a decimal digit character. -/
def digitVal (c : Char) : Nat := c.toNat - 48

/-- The ASCII whitespace characters Python's `int()` strips from a string
argument. -/
def isPySpace (c : Char) : Bool :=
  c = ' ' || c = '\t' || c = '\n' || c = '\r' || c = '\x0b' || c = '\x0c'

/-- Drop leading whitespace, as `int()` does. -/
def dropSpaces : List Char → List Char
  | [] => []
  | c :: rest => if isPySpace c then dropSpaces rest else c :: rest

/-- After a first digit has been read: more digits, with single underscores
allowed between two digits, then optional trailing whitespace — the tail of
the string grammar Python's `int()` accepts. -/
def digitsTail (acc : Nat) : List Char → Option Nat
  | [] => some acc
  | c :: rest =>
    if c.isDigit then digitsTail (10 * acc + digitVal c) rest
    else if c = '_' then
      match rest with
      | [] => none
      | d :: rest2 =>
        if d.isDigit then digitsTail (10 * acc + digitVal d) rest2 else none
    else if isPySpace c then
      if rest.all isPySpace then some acc else none
    else none

/-- The digit part of an `int()` argument (after whitespace and sign):
at least one digit, then `digitsTail`. -/
def pyIntDigits : List Char → Option Nat
  | [] => none
  | c :: rest => if c.isDigit then digitsTail (digitVal c) rest else none

/-- Model of Python `int(s)` on a string: optional whitespace, an optional
sign, digits with single underscores between them, optional trailing
whitespace; anything else raises `ValueError` (`none`). -/
def pyInt (cs : List Char) : Option Int :=
  match dropSpaces cs with
  | [] => none
  | c :: rest =>
    if c = '+' then (pyIntDigits rest).map (fun n => (n : Int))
    else if c = '-' then (pyIntDigits rest).map (fun n => -(n : Int))
    else (pyIntDigits (c :: rest)).map (fun n => (n : Int))

/-- `_parse_isoformat_date` of CPython's `datetime` module: year is
`int(dtstr[0:4])`, then a `-`, month `int(dtstr[5:7])`, a `-`, day
`int(dtstr[8:10])`. Any failure — a bad `int`, or the separator index out
of range (an `IndexError` in Python) — makes the surrounding parse fail. -/
def parseIsoDate (dtstr : List Char) : Option (Int × Int × Int) :=
  match pyInt (dtstr.take 4) with
  | none => none
  | some y =>
    if dtstr.get? 4 = some '-' then
      match pyInt ((dtstr.drop 5).take 2) with
      | none => none
      | some mo =>
        if dtstr.get? 7 = some '-' then
          match pyInt ((dtstr.drop 8).take 2) with
          | none => none
          | some d => some (y, mo, d)
        else none
    else none

/-- `_parse_hh_mm_ss_ff` of CPython's `datetime` module: parses
`HH[:MM[:SS[.fff[fff]]]]`. Each component is `int` of a two-character
slice (so at least two characters must remain for it); the fraction dot is
admitted only right after the seconds or when the components stop at the
string end, and the fraction has exactly three or six characters. Returns
hour, minute, second and the microsecond value. -/
def parseHMSF (t : List Char) : Option (Int × Int × Int × Int) :=
  if t.length < 2 then none
  else
    match pyInt (t.take 2) with
    | none => none
    | some h =>
      match t.drop 2 with
      | [] => some (h, 0, 0, 0)
      | c1 :: r1 =>
        if c1 = ':' then
          if r1.length < 2 then none
          else
            match pyInt (r1.take 2) with
            | none => none
            | some mi =>
              match r1.drop 2 with
              | [] => some (h, mi, 0, 0)
              | c2 :: r2 =>
                if c2 = ':' then
                  if r2.length < 2 then none
                  else
                    match pyInt (r2.take 2) with
                    | none => none
                    | some se =>
                      match r2.drop 2 with
                      | [] => some (h, mi, se, 0)
                      | c3 :: r3 =>
                        if c3 = '.' then
                          if r3.length = 3 then
                            (pyInt r3).map (fun f => (h, mi, se, f * 1000))
                          else if r3.length = 6 then
                            (pyInt r3).map (fun f => (h, mi, se, f))
                          else none
                        else none
                else none
        else none

/-- `_parse_isoformat_time` of CPython's `datetime` module: the string is
split at the first `-`, or, failing that, the first `+`; the part before it
goes through `parseHMSF` and the part after must have length 5, 8 or 15
(`HH:MM`, `HH:MM:SS` or `HH:MM:SS.ffffff`) and also goes through
`parseHMSF`. The resulting `timedelta` must be strictly between minus and
plus 24 hours (the `timezone` constructor's check). The offset is returned
in microseconds. -/
def parseIsoTime (tstr : List Char) : Option (Int × Int × Int × Int × Option Int) :=
  if tstr.length < 2 then none
  else
    let tzData : Option (Nat × Int) :=
      match tstr.findIdx? (fun c => c == '-') with
      | some i => some (i + 1, -1)
      | none =>
        match tstr.findIdx? (fun c => c == '+') with
        | some i => some (i + 1, 1)
        | none => none
    match tzData with
    | none =>
      match parseHMSF tstr with
      | none => none
      | some (h, mi, se, us) => some (h, mi, se, us, none)
    | some (tzPos, sign) =>
      match parseHMSF (tstr.take (tzPos - 1)) with
      | none => none
      | some (h, mi, se, us) =>
        let tzstr := tstr.drop tzPos
        if tzstr.length = 5 ∨ tzstr.length = 8 ∨ tzstr.length = 15 then
          match parseHMSF tzstr with
          | none => none
          | some (th, tm, ts, tus) =>
            let off : Int := sign * (((th * 60 + tm) * 60 + ts) * 1000000 + tus)
            if -86400000000 < off ∧ off < 86400000000 then
              some (h, mi, se, us, some off)
            else none
        else none

/-- Days in the given month, with the Gregorian leap rule (callers validate
`1 ≤ y` and `1 ≤ m ≤ 12` alongside this). -/
def daysInMonth (y m : Int) : Int :=
  if m = 2 then
    if y % 4 = 0 ∧ (¬ y % 100 = 0 ∨ y % 400 = 0) then 29 else 28
  else if m = 4 ∨ m = 6 ∨ m = 9 ∨ m = 11 then 30
  else 31

/-- The `datetime` constructor's range checks (`MINYEAR`/`MAXYEAR`, month,
day of the month, time fields); a violation raises `ValueError`, modelled
as `none`. -/
def mkDatetime (y mo d h mi se us : Int) (tz : Option Int) : Option PyDateTime :=
  if 1 ≤ y ∧ y ≤ 9999 ∧ 1 ≤ mo ∧ mo ≤ 12 ∧ 1 ≤ d ∧ d ≤ daysInMonth y mo
      ∧ 0 ≤ h ∧ h < 24 ∧ 0 ≤ mi ∧ mi < 60 ∧ 0 ≤ se ∧ se < 60
      ∧ 0 ≤ us ∧ us < 1000000 then
    some ⟨y, mo, d, h, mi, se, us, tz⟩
  else none

/-- Model of CPython's `datetime.fromisoformat` — the pure-Python algorithm
of the versions this script was written against (before 3.11), the inverse
of `datetime.isoformat`: `dtstr = s[0:10]` is parsed as `YYYY-MM-DD`; when
anything follows, the character at index 10 is a separator skipped without
inspection and `tstr = s[11:]` must be a nonempty
`HH[:MM[:SS[.fff[fff]]]][(+|-)HH:MM[:SS[.ffffff]]]` time string. A bare
date must be exactly ten characters long. Every failure mode — bad slices,
out-of-range fields, an out-of-range offset — is `none`; the bare `except`
of lines 105-106 of parser.py treats every raised exception alike. -/
def fromisoformat (s : String) : Option PyDateTime :=
  let cs := s.data
  match parseIsoDate (cs.take 10) with
  | none => none
  | some (y, mo, d) =>
    match cs.drop 11 with
    | [] =>
      if cs.length = 10 then mkDatetime y mo d 0 0 0 0 none else none
    | tstr =>
      match parseIsoTime tstr with
      | none => none
      | some (h, mi, se, us, tz) => mkDatetime y mo d h mi se us tz

/-- `date.toordinal` arithmetic: days of the proleptic Gregorian calendar
before January 1 of year `y`. -/
def daysBeforeYear (y : Int) : Int :=
  (y - 1) * 365 + (y - 1) / 4 - (y - 1) / 100 + (y - 1) / 400

/-- Days of year `y` strictly before the first of month `m`
(used with validated `1 ≤ m ≤ 12`). -/
def daysBeforeMonth (y m : Int) : Int :=
  (if m = 1 then 0 else if m = 2 then 31 else if m = 3 then 59
   else if m = 4 then 90 else if m = 5 then 120 else if m = 6 then 151
   else if m = 7 then 181 else if m = 8 then 212 else if m = 9 then 243
   else if m = 10 then 273 else if m = 11 then 304 else 334)
  + (if 3 ≤ m ∧ y % 4 = 0 ∧ (¬ y % 100 = 0 ∨ y % 400 = 0) then 1 else 0)

/-- The instant of a datetime on an absolute microsecond scale: the
proleptic-Gregorian ordinal of the date, the time of day, minus the UTC
offset. On constructor-validated fields this is a strictly monotone
encoding of the field tuple when the offsets agree, and the exact instant
in general. -/
def PyDateTime.instantUs (dt : PyDateTime) : Int :=
  ((daysBeforeYear dt.year + daysBeforeMonth dt.year dt.month + dt.day) * 86400
      + dt.hour * 3600 + dt.minute * 60 + dt.second) * 1000000
    + dt.microsecond - dt.tzOffsetUs.getD 0

/-- Model of `<` on datetimes (line 103 of parser.py): naive with naive
compares the field tuples and aware with aware compares instants — on
values built by `mkDatetime` both orders are the `instantUs` order, since
the field encoding is strictly monotone on in-range fields and naive values
carry offset zero here. Comparing an aware and a naive datetime raises
`TypeError`, modelled as `none`. -/
def pyDtLt (a b : PyDateTime) : Option Bool :=
  match a.tzOffsetUs, b.tzOffsetUs with
  | none, none => some (decide (a.instantUs < b.instantUs))
  | some _, some _ => some (decide (a.instantUs < b.instantUs))
  | _, _ => none

/-- Replace every occurrence of the character `Z` by `+00:00`; since the
pattern is a single character this is exactly `s.replace("Z", "+00:00")`. -/
def zreplaceChars : List Char → List Char
  | [] => []
  | c :: rest =>
    if c = 'Z' then '+' :: '0' :: '0' :: ':' :: '0' :: '0' :: zreplaceChars rest
    else c :: zreplaceChars rest

/-- `s.replace("Z", "+00:00")` from lines 101-102 of parser.py. -/
def zreplace (s : String) : String := String.mk (zreplaceChars s.data)

/-- Models lines 100-106 of parser.py: parse the stored and the new
`played_at` timestamps and test whether the new one is strictly earlier; any
failure (non-string value, parse error, aware/naive comparison) is swallowed
by the bare `except`, yielding `false` so that the stored value is kept. -/
def firstSeenEarlier (cur newTs : Json) : Bool :=
  match cur, newTs with
  | .str c, .str n =>
    match fromisoformat (zreplace c), fromisoformat (zreplace n) with
    | some dc, some dn => (pyDtLt dn dc).getD false
    | _, _ => false
  | _, _ => false

/-- One entry of `self.tracks` (lines 80-85): the canonical TrackRecord. -/
structure TrackInfo where
  track_id : Json
  title : Json
  artist : Json
  url : Json
deriving DecidableEq

/-- One entry of `self.listening_history` (lines 111-117). -/
structure HistoryEntry where
  track_id : Json
  title : Json
  artist : Json
  played_at : Json
  source_url : Json
deriving DecidableEq

/-- The five aggregation tables of `SoundCloudParser.__init__` (lines 30-35).
`play_counts` is a `defaultdict(int)`, modelled by reads that default to 0;
the other dicts are plain dicts modelled as association lists in insertion
order. -/
structure ParserState where
  tracks : List (Json × TrackInfo)
  play_counts : List (Json × Int)
  first_seen : List (Json × Json)
  last_seen : List (Json × Json)
  listening_history : List HistoryEntry
deriving DecidableEq

/-- The state of a freshly constructed `SoundCloudParser`. -/
def initState : ParserState := ⟨[], [], [], [], []⟩

/-- The fields computed for a candidate record in lines 55-77 and 84. -/
structure Candidate where
  track_id : Json
  title : Json
  artist : Json
  play_count : Json
  created_at : Json
  played_at : Json
  url : Json
deriving DecidableEq

/-- Result of examining a dict as a candidate record: not a candidate or a
falsy id (`skip`, no effect), an `AttributeError` raised while reading the
fields (`fail`, nothing mutated yet), or the extracted fields. -/
inductive CandResult where
  | skip : CandResult
  | fail : CandResult
  | fields (c : Candidate) : CandResult
deriving DecidableEq

/-- Models lines 54-77 and 84 of parser.py: a dict is a candidate record when
it has an `id` key and a `title` or `track` key; a falsy id is discarded
(line 56's `return`). The detail source is `data.get("track", data)`;
calling `.get` on a non-dict `track` value, or on a non-dict `user` value,
raises `AttributeError` (`fail`). Field order and fallbacks follow the
source line by line. -/
def candidateOf (kvs : List (String × Json)) : CandResult :=
  if (lookupKey kvs "id").isSome
      && ((lookupKey kvs "title").isSome || (lookupKey kvs "track").isSome) then
    let tid := (lookupKey kvs "id").getD .null
    if truthy tid = false then .skip
    else
      match (lookupKey kvs "track").getD (.obj kvs) with
      | .obj tkvs =>
        match (lookupKey tkvs "user").getD (.obj []) with
        | .obj ukvs =>
          .fields
            { track_id := tid,
              title := (lookupKey tkvs "title").getD
                ((lookupKey kvs "title").getD (.str "Unknown")),
              artist := (lookupKey ukvs "username").getD
                ((lookupKey ukvs "full_name").getD (.str "Unknown Artist")),
              play_count := pyOr ((lookupKey kvs "play_count").getD (.num 0))
                (pyOr ((lookupKey kvs "count").getD (.num 0))
                  (pyOr ((lookupKey tkvs "playback_count").getD (.num 0)) (.num 0))),
              created_at := pyOr ((lookupKey kvs "created_at").getD .null)
                ((lookupKey tkvs "created_at").getD .null),
              played_at := pyOr ((lookupKey kvs "played_at").getD .null)
                ((lookupKey kvs "timestamp").getD .null),
              url := pyOr ((lookupKey tkvs "permalink_url").getD .null)
                ((lookupKey kvs "permalink_url").getD (.str "")) }
        | _ => .fail
      | _ => .fail
  else .skip

/-- Python `x > 0` for the possible results of the play-count or-chain
(line 88): numbers and booleans compare (`True` counts as 1), any other
type raises `TypeError` (`none`). -/
def pyGtZero : Json → Option Bool
  | .num n => some (decide (0 < n))
  | .bool b => some b
  | _ => none

/-- Numeric value of a play count that passed `pyGtZero`. -/
def jsonToInt : Json → Int
  | .num n => n
  | .bool b => if b then 1 else 0
  | _ => 0

/-- Models lines 79-120 of parser.py given the extracted fields: create the
TrackRecord when the id is new, raise `TypeError` on a non-numeric play-count
comparison (line 88; the TrackRecord insert has already happened), update the
play-count high-water mark, then the timestamp tables and the history log. -/
def applyCandidate (c : Candidate) (u : Json) (st : ParserState) :
    ParserState × Bool :=
  let st1 :=
    if (lookupJ st.tracks c.track_id).isNone then
      { st with tracks := st.tracks ++ [(c.track_id, ⟨c.track_id, c.title, c.artist, c.url⟩)] }
    else st
  match pyGtZero c.play_count with
  | none => (st1, false)
  | some gt =>
    let st2 :=
      if gt then
        { st1 with play_counts := (setJ st1.play_counts c.track_id
            (max ((lookupJ st1.play_counts c.track_id).getD 0) (jsonToInt c.play_count))) }
      else st1
    let st3 :=
      if truthy c.played_at then
        { st2 with
            first_seen :=
              match lookupJ st2.first_seen c.track_id with
              | none => setJ st2.first_seen c.track_id c.played_at
              | some cur =>
                if firstSeenEarlier cur c.played_at then
                  setJ st2.first_seen c.track_id c.played_at
                else st2.first_seen,
            last_seen := setJ st2.last_seen c.track_id c.played_at,
            listening_history := st2.listening_history ++
              [⟨c.track_id, c.title, c.artist, c.played_at, u⟩] }
      else st2
    let st4 :=
      if truthy c.created_at && (lookupJ st3.first_seen c.track_id).isNone then
        { st3 with first_seen := setJ st3.first_seen c.track_id c.created_at }
      else st3
    (st4, true)

/-- Candidate-record handling for a dict (lines 54-120): skip, fail before
any mutation, or apply the extracted fields to the state. -/
def recordStep (kvs : List (String × Json)) (u : Json) (st : ParserState) :
    ParserState × Bool :=
  match candidateOf kvs with
  | .skip => (st, true)
  | .fail => (st, false)
  | .fields c => applyCandidate c u st

theorem lookupKey_sizeOf {kvs : List (String × Json)} {k : String} {v : Json}
    (h : lookupKey kvs k = some v) : sizeOf v < sizeOf kvs := by
  induction kvs with
  | nil => simp [lookupKey] at h
  | cons hd tl ih =>
    obtain ⟨l, w⟩ := hd
    by_cases hl : l = k
    · simp [lookupKey, hl] at h
      subst h
      simp
      omega
    · simp [lookupKey, hl] at h
      have := ih h
      simp
      omega

mutual
/-- Models `SoundCloudParser._extract_track_data` (parser.py lines 37-124).
The boolean is `false` when a Python exception escaped: the state keeps the
mutations made before the raise and the caller stops processing this value.
For a dict, the `collection`/`tracks`/`items` values are walked first (lines
41-51), then the dict itself is examined as a candidate record (lines
54-120); a list recurses into its elements (lines 122-124); scalars do
nothing. -/
def extractTrack (data : Json) (u : Json) (st : ParserState) :
    ParserState × Bool :=
  match data with
  | .obj kvs =>
    match containerStep kvs "collection" u st with
    | (st1, false) => (st1, false)
    | (st1, true) =>
      match containerStep kvs "tracks" u st1 with
      | (st2, false) => (st2, false)
      | (st2, true) =>
        match containerStep kvs "items" u st2 with
        | (st3, false) => (st3, false)
        | (st3, true) => recordStep kvs u st3
  | .arr xs => extractList xs u st
  | _ => (st, true)
termination_by sizeOf data

/-- Models `for item in data[key]: self._extract_track_data(item, source_url)`
for `key` in `collection`/`tracks`/`items` (lines 41-51). The loop iterates
whatever value is bound to the key: an array yields its elements; iterating a
string or a dict yields one-character strings resp. key strings, which are
scalars on which `_extract_track_data` does nothing, so those cases leave the
state unchanged; iterating a number, boolean or `None` raises `TypeError`. -/
def containerStep (kvs : List (String × Json)) (key : String) (u : Json)
    (st : ParserState) : ParserState × Bool :=
  match h : lookupKey kvs key with
  | none => (st, true)
  | some (.arr xs) => extractList xs u st
  | some (.str _) => (st, true)
  | some (.obj _) => (st, true)
  | some _ => (st, false)
termination_by sizeOf kvs
decreasing_by
  have hs := lookupKey_sizeOf h
  simp at hs
  omega

/-- Sequential extraction over the elements of a list, stopping at the first
exception (which propagates to the per-file handler). -/
def extractList (xs : List Json) (u : Json) (st : ParserState) :
    ParserState × Bool :=
  match xs with
  | [] => (st, true)
  | x :: rest =>
    match extractTrack x u st with
    | (st1, false) => (st1, false)
    | (st1, true) => extractList rest u st1
termination_by sizeOf xs
end

mutual
/-- Fuel-indexed twin of `extractTrack`, structurally recursive in the fuel so
that the kernel can evaluate it (`extractTrack` itself is compiled by
well-founded recursion and does not reduce definitionally). `fuel_spec` proves
it agrees with `extractTrack` whenever the fuel covers the size of the
value. -/
def extractTrackF : Nat → Json → Json → ParserState → Option (ParserState × Bool)
  | 0, _, _, _ => none
  | Nat.succ n, data, u, st =>
    match data with
    | .obj kvs =>
      match containerStepF n kvs "collection" u st with
      | none => none
      | some (st1, false) => some (st1, false)
      | some (st1, true) =>
        match containerStepF n kvs "tracks" u st1 with
        | none => none
        | some (st2, false) => some (st2, false)
        | some (st2, true) =>
          match containerStepF n kvs "items" u st2 with
          | none => none
          | some (st3, false) => some (st3, false)
          | some (st3, true) => some (recordStep kvs u st3)
    | .arr xs => extractListF n xs u st
    | _ => some (st, true)

/-- Fuel-indexed twin of `containerStep`. -/
def containerStepF : Nat → List (String × Json) → String → Json → ParserState →
    Option (ParserState × Bool)
  | 0, _, _, _, _ => none
  | Nat.succ n, kvs, key, u, st =>
    match lookupKey kvs key with
    | none => some (st, true)
    | some (.arr xs) => extractListF n xs u st
    | some (.str _) => some (st, true)
    | some (.obj _) => some (st, true)
    | some _ => some (st, false)

/-- Fuel-indexed twin of `extractList`. -/
def extractListF : Nat → List Json → Json → ParserState → Option (ParserState × Bool)
  | 0, _, _, _ => none
  | Nat.succ n, xs, u, st =>
    match xs with
    | [] => some (st, true)
    | x :: rest =>
      match extractTrackF n x u st with
      | none => none
      | some (st1, false) => some (st1, false)
      | some (st1, true) => extractListF n rest u st1
end

mutual
/-- Computable size of a JSON value, used as fuel for the executable twin of
the extractor (`sizeOf` on this nested inductive has no executable code). -/
def jsize : Json → Nat
  | .null => 1
  | .bool _ => 1
  | .num _ => 1
  | .str _ => 1
  | .arr xs => 1 + jsizeL xs
  | .obj kvs => 1 + jsizeK kvs

/-- Size of a list of JSON values. -/
def jsizeL : List Json → Nat
  | [] => 1
  | x :: xs => 1 + jsize x + jsizeL xs

/-- Size of an association list of JSON values. -/
def jsizeK : List (String × Json) → Nat
  | [] => 1
  | kv :: kvs => 1 + jsize kv.2 + jsizeK kvs
end

theorem jsize_pos (v : Json) : 1 ≤ jsize v := by
  cases v <;> simp [jsize]

theorem lookupKey_jsize {kvs : List (String × Json)} {k : String} {v : Json}
    (h : lookupKey kvs k = some v) : jsize v < jsizeK kvs := by
  induction kvs with
  | nil => simp [lookupKey] at h
  | cons hd tl ih =>
    obtain ⟨l, w⟩ := hd
    by_cases hl : l = k
    · simp [lookupKey, hl] at h
      subst h
      simp [jsizeK]
      omega
    · simp [lookupKey, hl] at h
      have := ih h
      simp [jsizeK]
      omega

theorem containerStep_none {kvs : List (String × Json)} {key : String}
    (u : Json) (st : ParserState) (h : lookupKey kvs key = none) :
    containerStep kvs key u st = (st, true) := by
  rw [containerStep]
  split <;> simp_all

theorem containerStep_arr {kvs : List (String × Json)} {key : String}
    {xs : List Json} (u : Json) (st : ParserState)
    (h : lookupKey kvs key = some (.arr xs)) :
    containerStep kvs key u st = extractList xs u st := by
  rw [containerStep]
  split <;> simp_all

theorem containerStep_str {kvs : List (String × Json)} {key : String}
    {s : String} (u : Json) (st : ParserState)
    (h : lookupKey kvs key = some (.str s)) :
    containerStep kvs key u st = (st, true) := by
  rw [containerStep]
  split <;> simp_all

theorem containerStep_obj {kvs : List (String × Json)} {key : String}
    {kvs2 : List (String × Json)} (u : Json) (st : ParserState)
    (h : lookupKey kvs key = some (.obj kvs2)) :
    containerStep kvs key u st = (st, true) := by
  rw [containerStep]
  split <;> simp_all

theorem containerStep_null {kvs : List (String × Json)} {key : String}
    (u : Json) (st : ParserState) (h : lookupKey kvs key = some .null) :
    containerStep kvs key u st = (st, false) := by
  rw [containerStep]
  split <;> simp_all

theorem containerStep_bool {kvs : List (String × Json)} {key : String}
    {b : Bool} (u : Json) (st : ParserState)
    (h : lookupKey kvs key = some (.bool b)) :
    containerStep kvs key u st = (st, false) := by
  rw [containerStep]
  split <;> simp_all

theorem containerStep_num {kvs : List (String × Json)} {key : String}
    {m : Int} (u : Json) (st : ParserState)
    (h : lookupKey kvs key = some (.num m)) :
    containerStep kvs key u st = (st, false) := by
  rw [containerStep]
  split <;> simp_all

theorem fuel_spec :
    ∀ n : Nat,
      (∀ data u st, jsize data ≤ n →
        extractTrackF n data u st = some (extractTrack data u st)) ∧
      (∀ kvs key u st, jsizeK kvs ≤ n →
        containerStepF n kvs key u st = some (containerStep kvs key u st)) ∧
      (∀ (xs : List Json) u st, jsizeL xs ≤ n →
        extractListF n xs u st = some (extractList xs u st)) := by
  intro n
  induction n with
  | zero =>
    refine ⟨fun data u st h => ?_, fun kvs key u st h => ?_, fun xs u st h => ?_⟩
    · cases data <;> simp [jsize] at h
    · cases kvs <;> simp [jsizeK] at h
    · cases xs <;> simp [jsizeL] at h
  | succ n ih =>
    obtain ⟨ihT, ihC, ihL⟩ := ih
    refine ⟨fun data u st h => ?_, fun kvs key u st h => ?_, fun xs u st h => ?_⟩
    · cases data with
      | obj kvs =>
        have hk : jsizeK kvs ≤ n := by simp [jsize] at h; omega
        cases hc1 : containerStep kvs "collection" u st with
        | mk st1 ok1 =>
          cases hc2 : containerStep kvs "tracks" u st1 with
          | mk st2 ok2 =>
            cases hc3 : containerStep kvs "items" u st2 with
            | mk st3 ok3 =>
              cases ok1 <;> cases ok2 <;> cases ok3 <;>
                simp only [extractTrack, extractTrackF,
                  ihC kvs "collection" u st hk, ihC kvs "tracks" u st1 hk,
                  ihC kvs "items" u st2 hk, hc1, hc2, hc3]
      | arr xs =>
        have hx : jsizeL xs ≤ n := by simp [jsize] at h; omega
        simp only [extractTrack, extractTrackF]
        exact ihL xs u st hx
      | null => simp [extractTrack, extractTrackF]
      | bool b => simp [extractTrack, extractTrackF]
      | num m => simp [extractTrack, extractTrackF]
      | str s => simp [extractTrack, extractTrackF]
    · cases hk : lookupKey kvs key with
      | none => simp [containerStepF, hk, containerStep_none u st hk]
      | some v =>
        have hv := lookupKey_jsize hk
        cases v with
        | arr xs =>
          have hx : jsizeL xs ≤ n := by simp [jsize] at hv; omega
          rw [containerStep_arr u st hk]
          simp only [containerStepF, hk]
          exact ihL xs u st hx
        | null => simp [containerStepF, hk, containerStep_null u st hk]
        | bool b => simp [containerStepF, hk, containerStep_bool u st hk]
        | num m => simp [containerStepF, hk, containerStep_num u st hk]
        | str s => simp [containerStepF, hk, containerStep_str u st hk]
        | obj kvs2 => simp [containerStepF, hk, containerStep_obj u st hk]
    · cases xs with
      | nil => simp [extractList, extractListF]
      | cons x rest =>
        have hx : jsize x ≤ n := by
          have := jsize_pos x
          simp [jsizeL] at h
          omega
        have hr : jsizeL rest ≤ n := by simp [jsizeL] at h; omega
        cases ht : extractTrack x u st with
        | mk st1 ok1 =>
          cases ok1 <;>
            simp only [extractList, extractListF, ihT x u st hx, ht]
          exact ihL rest u st1 hr

theorem extractTrack_eq_fuel (data u : Json) (st : ParserState) :
    extractTrackF (jsize data) data u st = some (extractTrack data u st) :=
  ((fuel_spec (jsize data)).1) data u st (Nat.le_refl _)

/-- Kernel-computable form of one extraction call, used to evaluate concrete
scenarios: the fuel `sizeOf data` always suffices by `fuel_spec`. -/
def extractTrackRun (data u : Json) (st : ParserState) : ParserState × Bool :=
  (extractTrackF (jsize data) data u st).getD (st, true)

theorem extractTrackRun_eq (data u : Json) (st : ParserState) :
    extractTrackRun data u st = extractTrack data u st := by
  simp [extractTrackRun, extractTrack_eq_fuel]

/-- One input file after `json.load` (lines 141-148): the payload envelope
feeds `_extract_track_data(payload.get("data", {}), payload.get("url", ""))`.
The surrounding per-file `try` (lines 140-151) catches any exception, keeping
the state accumulated so far; a non-dict payload raises at `payload.get` and
contributes nothing. -/
def processDoc (st : ParserState) (payload : Json) : ParserState :=
  match payload with
  | .obj kvs =>
    (extractTrack ((lookupKey kvs "data").getD (.obj []))
      ((lookupKey kvs "url").getD (.str "")) st).1
  | _ => st

/-- The `for json_file in json_files:` loop of lines 139-151: every file is
processed in turn; per-file exceptions are caught and the loop continues. -/
def processDocs (st : ParserState) : List Json → ParserState
  | [] => st
  | d :: rest => processDocs (processDoc st d) rest

/-- Models `parse_dump_files` (lines 126-156) on a directory whose `*.json`
files parsed to `docs` in listing order, starting from the state of a fresh
parser. -/
def parseDumpFiles (docs : List Json) : ParserState :=
  processDocs initState docs

/-- Kernel-computable form of `processDoc` (through the fuel twin). -/
def processDocF (st : ParserState) (payload : Json) : ParserState :=
  match payload with
  | .obj kvs =>
    (extractTrackRun ((lookupKey kvs "data").getD (.obj []))
      ((lookupKey kvs "url").getD (.str "")) st).1
  | _ => st

theorem processDocF_eq (st : ParserState) (payload : Json) :
    processDocF st payload = processDoc st payload := by
  cases payload <;> simp [processDocF, processDoc, extractTrackRun_eq]

/-- Kernel-computable form of `processDocs`. -/
def processDocsF (st : ParserState) : List Json → ParserState
  | [] => st
  | d :: rest => processDocsF (processDocF st d) rest

theorem processDocsF_eq (docs : List Json) :
    ∀ st, processDocsF st docs = processDocs st docs := by
  induction docs with
  | nil => intro st; rfl
  | cons d rest ih => intro st; simp [processDocs, processDocsF, processDocF_eq, ih]

/-- Kernel-computable form of `parseDumpFiles`. -/
def parseDumpFilesF (docs : List Json) : ParserState :=
  processDocsF initState docs

theorem parseDumpFiles_eq (docs : List Json) :
    parseDumpFiles docs = parseDumpFilesF docs :=
  (processDocsF_eq docs initState).symm

theorem lookupJ_eq_none_iff {α : Type} (m : List (Json × α)) (k : Json) :
    lookupJ m k = none ↔ k ∉ m.map Prod.fst := by
  induction m with
  | nil => simp [lookupJ]
  | cons hd tl ih =>
    obtain ⟨l, w⟩ := hd
    by_cases h : l = k
    · subst h
      simp [lookupJ]
    · simp only [lookupJ, h, if_false, List.map, List.mem_cons, ih]
      constructor
      · intro hk hor
        rcases hor with hor | hor
        · exact h hor.symm
        · exact hk hor
      · intro hk hm
        exact hk (Or.inr hm)

theorem lookupJ_setJ_isSome {α : Type} (m : List (Json × α)) (k x : Json) (v : α) :
    (lookupJ (setJ m k v) x).isSome = (x = k || (lookupJ m x).isSome) := by
  rw [lookupJ_setJ]
  by_cases h : k = x
  · subst h
    simp
  · have h' : ¬ x = k := fun hx => h hx.symm
    simp [h, h']

/-- The `tracks` table of the state produced by lines 79-85: a new id is
appended with its TrackRecord, an existing id leaves the table unchanged. -/
def insertTrack (st : ParserState) (c : Candidate) : ParserState :=
  if (lookupJ st.tracks c.track_id).isNone then
    { st with tracks := st.tracks ++ [(c.track_id, ⟨c.track_id, c.title, c.artist, c.url⟩)] }
  else st

/-- The update of `first_seen` performed by lines 95-106 for one event. -/
def firstSeenUpd (fs : List (Json × Json)) (x p : Json) : List (Json × Json) :=
  match lookupJ fs x with
  | none => setJ fs x p
  | some cur => if firstSeenEarlier cur p then setJ fs x p else fs

/-- `applyCandidate` on the error path (non-comparable play count, line 88):
the TrackRecord insert of lines 79-85 has already happened, nothing else. -/
theorem applyCandidate_fail (c : Candidate) (u : Json) (st : ParserState)
    (hg : pyGtZero c.play_count = none) :
    applyCandidate c u st = (insertTrack st c, false) := by
  unfold applyCandidate insertTrack
  rw [hg]

/-- `applyCandidate` on the success path, with every table update spelled
out in the order the source performs them. -/
theorem applyCandidate_eq (c : Candidate) (u : Json) (st : ParserState)
    (gt : Bool) (hg : pyGtZero c.play_count = some gt) :
    applyCandidate c u st =
      (let st1 := insertTrack st c
       let pcs := if gt then setJ st.play_counts c.track_id
           (max ((lookupJ st.play_counts c.track_id).getD 0) (jsonToInt c.play_count))
         else st.play_counts
       let fs3 := if truthy c.played_at
         then firstSeenUpd st.first_seen c.track_id c.played_at
         else st.first_seen
       let fs4 := if truthy c.created_at && (lookupJ fs3 c.track_id).isNone
         then setJ fs3 c.track_id c.created_at
         else fs3
       let ls := if truthy c.played_at
         then setJ st.last_seen c.track_id c.played_at
         else st.last_seen
       let hist := if truthy c.played_at
         then st.listening_history ++ [⟨c.track_id, c.title, c.artist, c.played_at, u⟩]
         else st.listening_history
       (⟨st1.tracks, pcs, fs4, ls, hist⟩, true)) := by
  unfold applyCandidate insertTrack firstSeenUpd
  rw [hg]
  by_cases hN : (lookupJ st.tracks c.track_id).isNone <;>
    cases gt <;>
      by_cases hp : truthy c.played_at <;>
        simp [hN, hp] <;>
          split_ifs <;> rfl

theorem extract_preserves (P : ParserState → Prop)
    (hrec : ∀ kvs u st, P st → P (recordStep kvs u st).1) :
    ∀ n : Nat,
      (∀ data u st, jsize data ≤ n → P st → P (extractTrack data u st).1) ∧
      (∀ kvs key u st, jsizeK kvs ≤ n → P st → P (containerStep kvs key u st).1) ∧
      (∀ (xs : List Json) u st, jsizeL xs ≤ n → P st → P (extractList xs u st).1) := by
  intro n
  induction n with
  | zero =>
    refine ⟨fun data u st h => ?_, fun kvs key u st h => ?_, fun xs u st h => ?_⟩
    · cases data <;> simp [jsize] at h
    · cases kvs <;> simp [jsizeK] at h
    · cases xs <;> simp [jsizeL] at h
  | succ n ih =>
    obtain ⟨ihT, ihC, ihL⟩ := ih
    refine ⟨fun data u st h hP => ?_, fun kvs key u st h hP => ?_,
      fun xs u st h hP => ?_⟩
    · cases data with
      | obj kvs =>
        have hk : jsizeK kvs ≤ n := by simp [jsize] at h; omega
        cases hc1 : containerStep kvs "collection" u st with
        | mk st1 ok1 =>
          have hP1 : P st1 := by
            have := ihC kvs "collection" u st hk hP
            rwa [hc1] at this
          cases hc2 : containerStep kvs "tracks" u st1 with
          | mk st2 ok2 =>
            have hP2 : P st2 := by
              have := ihC kvs "tracks" u st1 hk hP1
              rwa [hc2] at this
            cases hc3 : containerStep kvs "items" u st2 with
            | mk st3 ok3 =>
              have hP3 : P st3 := by
                have := ihC kvs "items" u st2 hk hP2
                rwa [hc3] at this
              cases ok1 with
              | false =>
                have hE : extractTrack (.obj kvs) u st = (st1, false) := by
                  simp only [extractTrack, hc1]
                rw [hE]; exact hP1
              | true =>
                cases ok2 with
                | false =>
                  have hE : extractTrack (.obj kvs) u st = (st2, false) := by
                    simp only [extractTrack, hc1, hc2]
                  rw [hE]; exact hP2
                | true =>
                  cases ok3 with
                  | false =>
                    have hE : extractTrack (.obj kvs) u st = (st3, false) := by
                      simp only [extractTrack, hc1, hc2, hc3]
                    rw [hE]; exact hP3
                  | true =>
                    have hE : extractTrack (.obj kvs) u st = recordStep kvs u st3 := by
                      simp only [extractTrack, hc1, hc2, hc3]
                    rw [hE]; exact hrec kvs u st3 hP3
      | arr xs =>
        have hx : jsizeL xs ≤ n := by simp [jsize] at h; omega
        have hE : extractTrack (.arr xs) u st = extractList xs u st := by
          simp only [extractTrack]
        rw [hE]; exact ihL xs u st hx hP
      | null => simpa [extractTrack] using hP
      | bool b => simpa [extractTrack] using hP
      | num m => simpa [extractTrack] using hP
      | str s => simpa [extractTrack] using hP
    · cases hk : lookupKey kvs key with
      | none => simpa [containerStep_none u st hk] using hP
      | some v =>
        have hv := lookupKey_jsize hk
        cases v with
        | arr xs =>
          have hx : jsizeL xs ≤ n := by simp [jsize] at hv; omega
          rw [containerStep_arr u st hk]
          exact ihL xs u st hx hP
        | null => simpa [containerStep_null u st hk] using hP
        | bool b => simpa [containerStep_bool u st hk] using hP
        | num m => simpa [containerStep_num u st hk] using hP
        | str s => simpa [containerStep_str u st hk] using hP
        | obj kvs2 => simpa [containerStep_obj u st hk] using hP
    · cases xs with
      | nil => simpa [extractList] using hP
      | cons x rest =>
        have hx : jsize x ≤ n := by
          have := jsize_pos x
          simp [jsizeL] at h
          omega
        have hr : jsizeL rest ≤ n := by simp [jsizeL] at h; omega
        cases ht : extractTrack x u st with
        | mk st1 ok1 =>
          have hP1 : P st1 := by
            have := ihT x u st hx hP
            rwa [ht] at this
          cases ok1 with
          | false =>
            have hE : extractList (x :: rest) u st = (st1, false) := by
              simp only [extractList, ht]
            rw [hE]; exact hP1
          | true =>
            have hE : extractList (x :: rest) u st = extractList rest u st1 := by
              simp only [extractList, ht]
            rw [hE]; exact ihL rest u st1 hr hP1

/-- Preservation of a state predicate through one whole extraction call. -/
theorem extractTrack_preserves (P : ParserState → Prop)
    (hrec : ∀ kvs u st, P st → P (recordStep kvs u st).1)
    (data u : Json) (st : ParserState) (hP : P st) :
    P (extractTrack data u st).1 :=
  ((extract_preserves P hrec (jsize data)).1) data u st (Nat.le_refl _) hP

/-- Preservation of a state predicate through one document. -/
theorem processDoc_preserves (P : ParserState → Prop)
    (hrec : ∀ kvs u st, P st → P (recordStep kvs u st).1)
    (st : ParserState) (d : Json) (hP : P st) : P (processDoc st d) := by
  cases d <;> simp only [processDoc] <;>
    first
      | exact hP
      | exact extractTrack_preserves P hrec _ _ _ hP

/-- Preservation of a state predicate through a list of documents. -/
theorem processDocs_preserves (P : ParserState → Prop)
    (hrec : ∀ kvs u st, P st → P (recordStep kvs u st).1)
    (docs : List Json) :
    ∀ st, P st → P (processDocs st docs) := by
  induction docs with
  | nil => intro st hP; exact hP
  | cons d rest ih =>
    intro st hP
    exact ih _ (processDoc_preserves P hrec st d hP)

/-- A captured document whose payload is a single flat track record: an `id`,
a `title`, a `play_count` value and a `played_at` value (either may be
`null`, standing for an absent field since `null` is falsy exactly like the
defaults). Used to build concrete corpora for the testable properties. -/
def simpleDoc (x : Json) (t : String) (pc pa : Json) : Json :=
  .obj [("data", .obj
    [("id", x), ("title", .str t), ("play_count", pc), ("played_at", pa)])]

/-- The candidate fields extracted from a `simpleDoc` payload. -/
def simpleCand (x : Json) (t : String) (pc pa : Json) : Candidate :=
  ⟨x, .str t, .str "Unknown Artist", pyOr pc (.num 0), .null, pyOr pa .null, .str ""⟩

theorem candidateOf_simpleDoc (x : Json) (t : String) (pc pa : Json)
    (hX : truthy x = true) :
    candidateOf [("id", x), ("title", .str t), ("play_count", pc), ("played_at", pa)]
      = .fields (simpleCand x t pc pa) := by
  have h0 : truthy (Json.num 0) = false := rfl
  have hn : truthy Json.null = false := rfl
  simp [candidateOf, simpleCand, lookupKey, hX, pyOr, h0, hn]

/-- Processing one `simpleDoc`: the TrackRecord insert, the play-count
high-water update, and — when `played_at` is truthy — the timestamp tables
and the history log, exactly as lines 79-120 compute them. -/
theorem processDoc_simpleDoc (st : ParserState) (x : Json) (t : String)
    (pc pa : Json) (hX : truthy x = true) (gt : Bool)
    (hg : pyGtZero (pyOr pc (.num 0)) = some gt) :
    processDoc st (simpleDoc x t pc pa) =
      { tracks := (insertTrack st (simpleCand x t pc pa)).tracks,
        play_counts := (if gt then setJ st.play_counts x
            (max ((lookupJ st.play_counts x).getD 0) (jsonToInt (pyOr pc (.num 0))))
          else st.play_counts),
        first_seen := (if truthy pa then firstSeenUpd st.first_seen x (pyOr pa .null)
          else st.first_seen),
        last_seen := (if truthy pa then setJ st.last_seen x (pyOr pa .null)
          else st.last_seen),
        listening_history := (if truthy pa then st.listening_history ++
            [⟨x, .str t, .str "Unknown Artist", pyOr pa .null, .str ""⟩]
          else st.listening_history) } := by
  have e1 : lookupKey [("id", x), ("title", .str t), ("play_count", pc),
      ("played_at", pa)] "collection" = none := by simp [lookupKey]
  have e2 : lookupKey [("id", x), ("title", .str t), ("play_count", pc),
      ("played_at", pa)] "tracks" = none := by simp [lookupKey]
  have e3 : lookupKey [("id", x), ("title", .str t), ("play_count", pc),
      ("played_at", pa)] "items" = none := by simp [lookupKey]
  have hpd : processDoc st (simpleDoc x t pc pa) =
      (extractTrack (.obj [("id", x), ("title", .str t), ("play_count", pc),
        ("played_at", pa)]) (.str "") st).1 := by
    simp [processDoc, simpleDoc, lookupKey]
  rw [hpd]
  have hE : extractTrack (.obj [("id", x), ("title", .str t), ("play_count", pc),
      ("played_at", pa)]) (.str "") st =
      recordStep [("id", x), ("title", .str t), ("play_count", pc),
        ("played_at", pa)] (.str "") st := by
    simp only [extractTrack, containerStep_none (.str "") st e1,
      containerStep_none (.str "") st e2, containerStep_none (.str "") st e3]
  rw [hE]
  have hR : recordStep [("id", x), ("title", .str t), ("play_count", pc),
      ("played_at", pa)] (.str "") st =
      applyCandidate (simpleCand x t pc pa) (.str "") st := by
    simp only [recordStep, candidateOf_simpleDoc x t pc pa hX]
  rw [hR]
  have hg' : pyGtZero (simpleCand x t pc pa).play_count = some gt := hg
  rw [applyCandidate_eq (simpleCand x t pc pa) (.str "") st gt hg']
  have hnull : truthy Json.null = false := rfl
  have hpa : truthy (pyOr pa .null) = truthy pa := by
    cases hpv : truthy pa with
    | true => simp [pyOr, hpv]
    | false => simp [pyOr, hpv, hnull]
  simp only [simpleCand, hpa]
  simp [hnull]

theorem processDocs_append (a b : List Json) (st : ParserState) :
    processDocs st (a ++ b) = processDocs (processDocs st a) b := by
  induction a generalizing st with
  | nil => rfl
  | cons d rest ih => simp [processDocs, ih]

theorem pyOr_of_truthy {a : Json} (b : Json) (h : truthy a = true) :
    pyOr a b = a := by simp [pyOr, h]

theorem setJ_isSome_mono {α : Type} {m : List (Json × α)} {y : Json}
    (k : Json) (v : α) (h : (lookupJ m y).isSome = true) :
    (lookupJ (setJ m k v) y).isSome = true := by
  rw [lookupJ_setJ_isSome]
  simp [h]

theorem insertTrack_lookup_mono {st : ParserState} {y : Json}
    (c : Candidate) (h : (lookupJ st.tracks y).isSome = true) :
    (lookupJ (insertTrack st c).tracks y).isSome = true := by
  unfold insertTrack
  split_ifs with hN
  · simp only [lookupJ_append]
    cases hy : lookupJ st.tracks y
    · rw [hy] at h; simp at h
    · simp [hy]
  · exact h

theorem insertTrack_lookup_self (st : ParserState) (c : Candidate) :
    (lookupJ (insertTrack st c).tracks c.track_id).isSome = true := by
  unfold insertTrack
  split_ifs with hN
  · simp only [lookupJ_append]
    cases hy : lookupJ st.tracks c.track_id with
    | none => simp [lookupJ]
    | some i => simp [hy]
  · cases hy : lookupJ st.tracks c.track_id with
    | none => rw [hy] at hN; simp at hN
    | some i => simp [hy]

theorem firstSeenUpd_isSome_self (fs : List (Json × Json)) (x p : Json) :
    (lookupJ (firstSeenUpd fs x p) x).isSome = true := by
  cases hc : lookupJ fs x with
  | none => simp [firstSeenUpd, hc, lookupJ_setJ]
  | some cur =>
    cases hf : firstSeenEarlier cur p with
    | true => simp [firstSeenUpd, hc, hf, lookupJ_setJ]
    | false => simp [firstSeenUpd, hc, hf]

theorem firstSeenUpd_isSome_mono {fs : List (Json × Json)} {y : Json}
    (x p : Json) (h : (lookupJ fs y).isSome = true) :
    (lookupJ (firstSeenUpd fs x p) y).isSome = true := by
  cases hc : lookupJ fs x with
  | none =>
    simp only [firstSeenUpd, hc]
    exact setJ_isSome_mono x p h
  | some cur =>
    cases hf : firstSeenEarlier cur p with
    | true =>
      simp only [firstSeenUpd, hc, hf, if_true]
      exact setJ_isSome_mono x p h
    | false =>
      simp only [firstSeenUpd, hc, hf, Bool.false_eq_true, if_false]
      exact h

theorem insertTrack_lookup_persist {st : ParserState} {y : Json} {i : TrackInfo}
    (c : Candidate) (h : lookupJ st.tracks y = some i) :
    lookupJ (insertTrack st c).tracks y = some i := by
  unfold insertTrack
  split_ifs with hN
  · simp [lookupJ_append, h]
  · exact h

/-- One row of `top_tracks.csv` (lines 167-175). -/
structure TopRow where
  track_id : Json
  title : Json
  artist : Json
  play_count : Int
  first_seen : Json
  last_seen : Json
  url : Json
deriving DecidableEq

/-- Lines 164-175: one row per entry of `self.tracks`, in insertion order,
which is the order in which the track ids were first encountered; play count
and timestamps default to 0 resp. the empty string when absent. -/
def tracksList (st : ParserState) : List TopRow :=
  st.tracks.map fun kv =>
    { track_id := kv.1, title := kv.2.title, artist := kv.2.artist,
      play_count := (lookupJ st.play_counts kv.1).getD 0,
      first_seen := (lookupJ st.first_seen kv.1).getD (.str ""),
      last_seen := (lookupJ st.last_seen kv.1).getD (.str ""),
      url := kv.2.url }

/-- Line 178: `tracks_list.sort(key=lambda x: x["play_count"], reverse=True)`.
Python `list.sort` is a stable sort, so with `reverse=True` the rows are in
descending key order with ties kept in list order; `List.mergeSort` under
`fun a b => b.play_count ≤ a.play_count` is the same stable sort. -/
def topTracksRows (st : ParserState) : List TopRow :=
  (tracksList st).mergeSort fun a b => decide (b.play_count ≤ a.play_count)

/-- `generate_top_tracks_csv` (lines 158-196): with no track found nothing is
written (`none`), else the sorted rows. -/
def generateTopTracks (st : ParserState) : Option (List TopRow) :=
  if st.tracks.isEmpty then none else some (topTracksRows st)

/-- Sort key of line 207, `x.get("played_at", "")`. Captured timestamps are
strings; the model keys a non-string value by the empty string (in Python a
corpus mixing string and non-string `played_at` values would raise in
`sorted`, a case no claim depends on). -/
def playedAtKey (e : HistoryEntry) : String :=
  match e.played_at with
  | .str s => s
  | _ => ""

/-- `generate_listening_history_csv` (lines 198-221): with no history nothing
is written, else the events sorted by `played_at` as plain strings,
descending, stable. -/
def generateListeningHistory (st : ParserState) : Option (List HistoryEntry) :=
  if st.listening_history.isEmpty then none
  else some (st.listening_history.mergeSort
    fun a b => decide (playedAtKey b ≤ playedAtKey a))

/-- One entry of the `top_artists` list in `stats.json` (line 258). -/
structure ArtistCount where
  artist : Json
  play_count : Int
deriving DecidableEq

/-- Lines 245-250: play counts summed per artist; `defaultdict` iteration
order is first-occurrence order of the artist over `self.tracks`. -/
def artistCounts (st : ParserState) : List (Json × Int) :=
  st.tracks.foldl
    (fun m kv => setJ m kv.2.artist
      ((lookupJ m kv.2.artist).getD 0 + (lookupJ st.play_counts kv.1).getD 0))
    []

/-- `_get_top_artists` (lines 243-258): artists sorted by summed play count,
descending, stable, first ten. -/
def topArtists (st : ParserState) : List ArtistCount :=
  (((artistCounts st).mergeSort fun a b => decide (b.2 ≤ a.2)).take 10).map
    fun kv => ⟨kv.1, kv.2⟩

/-- String key used by `min`/`max` over the timestamp tables (lines 231-232);
stored timestamps are strings in practice. -/
def jsonKeyStr : Json → String
  | .str s => s
  | _ => ""

/-- `min(values)`: Python's `min` keeps the first of equal elements. -/
def minVals (vs : List Json) : Option Json :=
  match vs with
  | [] => none
  | v :: rest =>
    some (rest.foldl (fun a b => if jsonKeyStr b < jsonKeyStr a then b else a) v)

/-- `max(values)`: Python's `max` keeps the first of equal elements. -/
def maxVals (vs : List Json) : Option Json :=
  match vs with
  | [] => none
  | v :: rest =>
    some (rest.foldl (fun a b => if jsonKeyStr a < jsonKeyStr b then b else a) v)

/-- The record written to `stats.json` (lines 225-235). -/
structure Stats where
  total_tracks : Nat
  total_listens : Nat
  tracks_with_play_count : Nat
  total_play_count : Int
  first_seen : Option Json
  last_seen : Option Json
  top_artists : List ArtistCount
deriving DecidableEq

/-- `generate_stats_json` (lines 223-241). -/
def generateStats (st : ParserState) : Stats :=
  { total_tracks := st.tracks.length,
    total_listens := st.listening_history.length,
    tracks_with_play_count :=
      (st.tracks.filter fun kv => decide (0 < (lookupJ st.play_counts kv.1).getD 0)).length,
    total_play_count := (st.play_counts.map Prod.snd).sum,
    first_seen := minVals (st.first_seen.map Prod.snd),
    last_seen := maxVals (st.last_seen.map Prod.snd),
    top_artists := topArtists st }

/-- The three output artifacts of one run; `none` means the file was not
written. -/
structure RunOutput where
  top_tracks : Option (List TopRow)
  listening_history : Option (List HistoryEntry)
  stats : Option Stats
deriving DecidableEq

/-- Models `run` (lines 260-287) composed with `parse_dump_files`: with no
track found — in particular with zero input files, where `parse_dump_files`
returns at line 135 before touching the state — the run returns at line 271
before generating any artifact; otherwise the three generators run, each
writing its artifact only when it has rows. -/
def run (docs : List Json) : RunOutput :=
  let st := parseDumpFiles docs
  if st.tracks.isEmpty then ⟨none, none, none⟩
  else ⟨generateTopTracks st, generateListeningHistory st, some (generateStats st)⟩

/-- A TrackRecord is never modified once created: lines 79-85 insert only
when the id is absent, and no other line touches `self.tracks`. -/
theorem recordStep_tracks_persist (kvs : List (String × Json)) (u : Json)
    (st : ParserState) {x : Json} {i : TrackInfo}
    (h : lookupJ st.tracks x = some i) :
    lookupJ (recordStep kvs u st).1.tracks x = some i := by
  unfold recordStep
  cases hco : candidateOf kvs with
  | skip => exact h
  | fail => exact h
  | fields c =>
    change lookupJ (applyCandidate c u st).1.tracks x = some i
    cases hg : pyGtZero c.play_count with
    | none =>
      rw [applyCandidate_fail c u st hg]
      exact insertTrack_lookup_persist c h
    | some gt =>
      rw [applyCandidate_eq c u st gt hg]
      exact insertTrack_lookup_persist c h

/-- TrackRecord persistence through any further documents. -/
theorem tracks_persist (docs : List Json) {x : Json} {i : TrackInfo} :
    ∀ st : ParserState, lookupJ st.tracks x = some i →
      lookupJ (processDocs st docs).tracks x = some i :=
  processDocs_preserves (fun st => lookupJ st.tracks x = some i)
    (fun kvs u st h => recordStep_tracks_persist kvs u st h) docs

/-! ## Claims -/

/-- C9: given zero input JSON files in the input directory,
`parse_dump_files` returns at line 135 and `run` returns at line 271, so the
run terminates without error (the model of `run` is a total function) and
none of the three output artifacts — top_tracks.csv, listening_history.csv,
stats.json — is written. -/
theorem claim_C9 : run [] = ⟨none, none, none⟩ := rfl

/-- C5: a candidate record object whose `id` field is falsy is discarded
silently (line 56): the candidate-record step leaves the state unchanged and
raises nothing, whatever else the object contains; and for such an object
with no `collection`/`tracks`/`items` keys the whole extraction call returns
the state unchanged — no TrackRecord, PlayCount, FirstSeen, LastSeen or
ListeningEvent entry is added or modified. -/
theorem claim_C5 :
    (∀ (kvs : List (String × Json)) (u : Json) (st : ParserState) (i : Json),
      lookupKey kvs "id" = some i → truthy i = false →
      recordStep kvs u st = (st, true)) ∧
    (∀ (kvs : List (String × Json)) (u : Json) (st : ParserState) (i : Json),
      lookupKey kvs "id" = some i → truthy i = false →
      lookupKey kvs "collection" = none → lookupKey kvs "tracks" = none →
      lookupKey kvs "items" = none →
      extractTrack (.obj kvs) u st = (st, true)) := by
  have hrec : ∀ (kvs : List (String × Json)) (u : Json) (st : ParserState) (i : Json),
      lookupKey kvs "id" = some i → truthy i = false →
      recordStep kvs u st = (st, true) := by
    intro kvs u st i hid hf
    unfold recordStep candidateOf
    rw [hid]
    by_cases hc : ((some i : Option Json).isSome
        && ((lookupKey kvs "title").isSome || (lookupKey kvs "track").isSome)) = true
    · simp [hc, hf]
    · simp at hc
      simp [hc]
  refine ⟨hrec, fun kvs u st i hid hf h1 h2 h3 => ?_⟩
  simp only [extractTrack, containerStep_none u st h1, containerStep_none u st h2,
    containerStep_none u st h3]
  exact hrec kvs u st i hid hf

/-- Witness for C5: a record object with id 0 has no effect at all. -/
theorem claim_C5_witness :
    extractTrack (.obj [("id", .num 0), ("title", .str "A")]) (.str "") initState
      = (initState, true) :=
  claim_C5.2 [("id", .num 0), ("title", .str "A")] (.str "") initState (.num 0)
    rfl rfl rfl rfl rfl

/-- C7 counterexample: an object whose `collection` key is bound to the
number 5 makes `for item in data["collection"]` raise `TypeError`; the
exception escapes the extractor (success flag `false`), aborting the
processing of that document — contradicting the claim that a non-array value
under that key is simply not recursed into and raises no error. -/
theorem claim_C7_counterexample :
    extractTrack (.obj [("collection", .num 5)]) (.str "") initState
      = (initState, false) := by
  have h : lookupKey [("collection", Json.num 5)] "collection" = some (.num 5) := rfl
  simp only [extractTrack, containerStep_num (.str "") initState h]

/-- C7 amended: the extractor iterates whatever value is bound to the
`collection` key. An array recurses into its elements; a string or an object
iterates over one-character strings resp. key strings, which are scalars, so
the state is unchanged and no error is raised; a number, a boolean or `null`
is not iterable, so a `TypeError` aborts that document's processing — and
the per-file handler catches it, so a run continues with the remaining
documents, the state keeping only what was extracted before the raise. -/
theorem claim_C7_amended :
    (∀ (u : Json) (st : ParserState) (xs : List Json),
      extractTrack (.obj [("collection", .arr xs)]) u st = extractList xs u st) ∧
    (∀ (u : Json) (st : ParserState) (s : String),
      extractTrack (.obj [("collection", .str s)]) u st = (st, true)) ∧
    (∀ (u : Json) (st : ParserState) (kvs2 : List (String × Json)),
      extractTrack (.obj [("collection", .obj kvs2)]) u st = (st, true)) ∧
    (∀ (u : Json) (st : ParserState) (n : Int),
      extractTrack (.obj [("collection", .num n)]) u st = (st, false)) ∧
    (∀ (u : Json) (st : ParserState) (b : Bool),
      extractTrack (.obj [("collection", .bool b)]) u st = (st, false)) ∧
    (∀ (u : Json) (st : ParserState),
      extractTrack (.obj [("collection", .null)]) u st = (st, false)) ∧
    (∀ docs : List Json,
      parseDumpFiles (.obj [("data", .obj [("collection", .null)])] :: docs)
        = parseDumpFiles docs) := by
  have harr : ∀ (u : Json) (st : ParserState) (xs : List Json),
      extractTrack (.obj [("collection", .arr xs)]) u st = extractList xs u st := by
    intro u st xs
    have h : lookupKey [("collection", Json.arr xs)] "collection" = some (.arr xs) := rfl
    cases hL : extractList xs u st with
    | mk st1 ok =>
      have h2 : lookupKey [("collection", Json.arr xs)] "tracks" = none := rfl
      have h3 : lookupKey [("collection", Json.arr xs)] "items" = none := rfl
      cases ok with
      | false => simp only [extractTrack, containerStep_arr u st h, hL]
      | true =>
        simp only [extractTrack, containerStep_arr u st h, hL,
          containerStep_none u st1 h2, containerStep_none u st1 h3]
        simp [recordStep, candidateOf, lookupKey]
  have hstr : ∀ (u : Json) (st : ParserState) (s : String),
      extractTrack (.obj [("collection", .str s)]) u st = (st, true) := by
    intro u st s
    have h : lookupKey [("collection", Json.str s)] "collection" = some (.str s) := rfl
    have h2 : lookupKey [("collection", Json.str s)] "tracks" = none := rfl
    have h3 : lookupKey [("collection", Json.str s)] "items" = none := rfl
    simp only [extractTrack, containerStep_str u st h, containerStep_none u st h2,
      containerStep_none u st h3]
    simp [recordStep, candidateOf, lookupKey]
  have hobj : ∀ (u : Json) (st : ParserState) (kvs2 : List (String × Json)),
      extractTrack (.obj [("collection", .obj kvs2)]) u st = (st, true) := by
    intro u st kvs2
    have h : lookupKey [("collection", Json.obj kvs2)] "collection"
        = some (.obj kvs2) := rfl
    have h2 : lookupKey [("collection", Json.obj kvs2)] "tracks" = none := rfl
    have h3 : lookupKey [("collection", Json.obj kvs2)] "items" = none := rfl
    simp only [extractTrack, containerStep_obj u st h, containerStep_none u st h2,
      containerStep_none u st h3]
    simp [recordStep, candidateOf, lookupKey]
  have hnul : ∀ (u : Json) (st : ParserState),
      extractTrack (.obj [("collection", .null)]) u st = (st, false) := by
    intro u st
    have h : lookupKey [("collection", Json.null)] "collection" = some .null := rfl
    simp only [extractTrack, containerStep_null u st h]
  refine ⟨harr, hstr, hobj, ?_, ?_, hnul, ?_⟩
  · intro u st n
    have h : lookupKey [("collection", Json.num n)] "collection" = some (.num n) := rfl
    simp only [extractTrack, containerStep_num u st h]
  · intro u st b
    have h : lookupKey [("collection", Json.bool b)] "collection" = some (.bool b) := rfl
    simp only [extractTrack, containerStep_bool u st h]
  · intro docs
    show processDocs
      (processDoc initState (.obj [("data", .obj [("collection", .null)])])) docs
      = processDocs initState docs
    have h1 : processDoc initState (.obj [("data", .obj [("collection", .null)])])
        = (extractTrack (.obj [("collection", Json.null)]) (.str "") initState).1 := rfl
    rw [h1, hnul (.str "") initState]

/-- C6 counterexample: the first observation of id 1 carries the empty title,
the second carries "B"; the claim says the first non-empty value ("B") wins,
but the code keeps whatever the first observation computed — the empty
string. -/
theorem claim_C6_counterexample :
    (lookupJ (parseDumpFiles
        [simpleDoc (.num 1) "" .null .null,
         simpleDoc (.num 1) "B" .null .null]).tracks (.num 1)).map TrackInfo.title
      = some (.str "") ∧ Json.str "" ≠ Json.str "B" := by
  constructor
  · have hsteps : parseDumpFiles
        [simpleDoc (.num 1) "" .null .null, simpleDoc (.num 1) "B" .null .null]
        = processDoc (processDoc initState (simpleDoc (.num 1) "" .null .null))
            (simpleDoc (.num 1) "B" .null .null) := rfl
    have h1 := processDoc_simpleDoc initState (.num 1) "" .null .null rfl false rfl
    have h2 := processDoc_simpleDoc
      (processDoc initState (simpleDoc (.num 1) "" .null .null))
      (.num 1) "B" .null .null rfl false rfl
    rw [hsteps, h2, h1]
    simp [insertTrack, simpleCand, initState, lookupJ, setJ, truthy, pyOr]
  · decide

/-- C6 amended: the TrackRecord created at the first observation of an id —
its title included, empty or not — persists unchanged through the rest of
the run; later observations never overwrite it. -/
theorem claim_C6_amended (docs1 docs2 : List Json) (x : Json) (i : TrackInfo)
    (h : lookupJ (parseDumpFiles docs1).tracks x = some i) :
    lookupJ (parseDumpFiles (docs1 ++ docs2)).tracks x = some i := by
  unfold parseDumpFiles at h ⊢
  rw [processDocs_append]
  exact tracks_persist docs2 _ h

/-- Witness for C6 amended: the record created by the empty-title document
survives a later document with a non-empty title. -/
theorem claim_C6_witness :
    lookupJ (parseDumpFiles ([simpleDoc (.num 1) "" .null .null]
        ++ [simpleDoc (.num 1) "B" .null .null])).tracks (.num 1)
      = some ⟨.num 1, .str "", .str "Unknown Artist", .str ""⟩ :=
  claim_C6_amended [simpleDoc (.num 1) "" .null .null]
    [simpleDoc (.num 1) "B" .null .null] (.num 1)
    ⟨.num 1, .str "", .str "Unknown Artist", .str ""⟩
    (by
      have h1 := processDoc_simpleDoc initState (.num 1) "" .null .null rfl false rfl
      have hsteps : parseDumpFiles [simpleDoc (.num 1) "" .null .null]
          = processDoc initState (simpleDoc (.num 1) "" .null .null) := rfl
      rw [hsteps, h1]
      simp [insertTrack, simpleCand, initState, lookupJ, setJ, truthy, pyOr])

/-- C2 counterexample: a document whose payload carries a truthy `id`, a
`title` key bound to "T" and a `track` sub-object titled "S": the detail
source's title wins (line 62), so the TrackRecord's title is "S", not
"T" — the claim's universal statement fails on this corpus. -/
theorem claim_C2_counterexample :
    (lookupJ (parseDumpFiles [.obj [("data", .obj
        [("id", .num 1), ("title", .str "T"),
         ("track", .obj [("title", .str "S")])])]]).tracks (.num 1)).map
      TrackInfo.title = some (.str "S") ∧ Json.str "S" ≠ Json.str "T" := by
  refine ⟨?_, by decide⟩
  rw [parseDumpFiles_eq]
  decide

/-- C2 amended: if a document whose `data` is exactly an object with truthy
id X, a title key "T" and no `track` key is processed at a point where X has
no TrackRecord yet, then the TrackRecord for X at the end of the run has
title "T" (a `track` sub-object's title would take precedence, and an
earlier record for X would win otherwise). -/
theorem claim_C2_amended (pre post : List Json) (x : Json) (t : String)
    (hx : truthy x = true)
    (h : lookupJ (parseDumpFiles pre).tracks x = none) :
    (lookupJ (parseDumpFiles
        (pre ++ simpleDoc x t .null .null :: post)).tracks x).map TrackInfo.title
      = some (.str t) := by
  unfold parseDumpFiles at h ⊢
  rw [processDocs_append]
  have hshow : processDocs (processDocs initState pre) (simpleDoc x t .null .null :: post)
      = processDocs (processDoc (processDocs initState pre) (simpleDoc x t .null .null)) post := rfl
  rw [hshow]
  have hstep := processDoc_simpleDoc (processDocs initState pre) x t .null .null hx false rfl
  have hafter : lookupJ (processDoc (processDocs initState pre)
      (simpleDoc x t .null .null)).tracks x
      = some ⟨x, .str t, .str "Unknown Artist", .str ""⟩ := by
    rw [hstep]
    show lookupJ (insertTrack (processDocs initState pre) (simpleCand x t .null .null)).tracks x
      = some ⟨x, .str t, .str "Unknown Artist", .str ""⟩
    unfold insertTrack
    rw [if_pos (by simp [simpleCand, h])]
    simp [lookupJ_append, h, simpleCand, lookupJ]
  rw [tracks_persist post _ hafter]
  rfl

/-- Witness for C2 amended at a one-document corpus. -/
theorem claim_C2_witness :
    (lookupJ (parseDumpFiles
        ([] ++ simpleDoc (.num 1) "T" .null .null :: [])).tracks (.num 1)).map
      TrackInfo.title = some (.str "T") :=
  claim_C2_amended [] [] (.num 1) "T" rfl rfl

theorem insertTrack_first_seen (st : ParserState) (c : Candidate) :
    (insertTrack st c).first_seen = st.first_seen := by
  unfold insertTrack
  split_ifs <;> rfl

theorem insertTrack_last_seen (st : ParserState) (c : Candidate) :
    (insertTrack st c).last_seen = st.last_seen := by
  unfold insertTrack
  split_ifs <;> rfl

/-- The invariant of C10: every id in the `last_seen` table also has a
`first_seen` entry and a TrackRecord. -/
def lastSeenInv (st : ParserState) : Prop :=
  ∀ x : Json, (lookupJ st.last_seen x).isSome = true →
    (lookupJ st.first_seen x).isSome = true ∧ (lookupJ st.tracks x).isSome = true

theorem recordStep_lastSeenInv (kvs : List (String × Json)) (u : Json)
    (st : ParserState) (h : lastSeenInv st) :
    lastSeenInv (recordStep kvs u st).1 := by
  unfold recordStep
  cases hco : candidateOf kvs with
  | skip => exact h
  | fail => exact h
  | fields c =>
    change lastSeenInv (applyCandidate c u st).1
    cases hg : pyGtZero c.play_count with
    | none =>
      rw [applyCandidate_fail c u st hg]
      intro x hx
      rw [insertTrack_last_seen] at hx
      obtain ⟨hf, ht⟩ := h x hx
      exact ⟨(insertTrack_first_seen st c).symm ▸ hf, insertTrack_lookup_mono c ht⟩
    | some gt =>
      rw [applyCandidate_eq c u st gt hg]
      intro x hx
      dsimp only at hx ⊢
      have hfs4mono : ∀ fs3 y, (lookupJ fs3 y).isSome = true →
          (lookupJ (if truthy c.created_at && (lookupJ fs3 c.track_id).isNone
            then setJ fs3 c.track_id c.created_at else fs3) y).isSome = true := by
        intro fs3 y hy
        split_ifs
        · exact setJ_isSome_mono _ _ hy
        · exact hy
      by_cases hp : truthy c.played_at = true
      · rw [if_pos hp] at hx
        rw [lookupJ_setJ_isSome] at hx
        rcases Bool.or_eq_true_iff.mp hx with hx1 | hx2
      -- hmm decide-form: x = tid is a Prop decided; handle below
        · have hxe : x = c.track_id := by
            by_cases hq : x = c.track_id
            · exact hq
            · simp [hq] at hx1
          subst hxe
          refine ⟨?_, insertTrack_lookup_self st c⟩
          rw [if_pos hp]
          exact hfs4mono _ _ (firstSeenUpd_isSome_self st.first_seen c.track_id c.played_at)
        · obtain ⟨hf, ht⟩ := h x hx2
          refine ⟨?_, insertTrack_lookup_mono c ht⟩
          rw [if_pos hp]
          exact hfs4mono _ _ (firstSeenUpd_isSome_mono _ _ hf)
      · rw [if_neg hp] at hx
        obtain ⟨hf, ht⟩ := h x hx
        refine ⟨?_, insertTrack_lookup_mono c ht⟩
        rw [if_neg hp]
        exact hfs4mono _ _ hf

/-- C10: after any run, every track id with a LastSeen entry also has a
FirstSeen entry and a TrackRecord — lines 95-120 populate `first_seen` (and
lines 79-85 the TrackRecord) before line 108 sets `last_seen`. -/
theorem claim_C10 (docs : List Json) (x : Json)
    (h : (lookupJ (parseDumpFiles docs).last_seen x).isSome = true) :
    (lookupJ (parseDumpFiles docs).first_seen x).isSome = true ∧
    (lookupJ (parseDumpFiles docs).tracks x).isSome = true := by
  have hinv : lastSeenInv (parseDumpFiles docs) := by
    unfold parseDumpFiles
    refine processDocs_preserves lastSeenInv recordStep_lastSeenInv docs initState ?_
    intro y hy
    simp [initState, lookupJ] at hy
  exact hinv x h

/-- Witness for C10 on a one-event corpus. -/
theorem claim_C10_witness :
    (lookupJ (parseDumpFiles [simpleDoc (.num 1) "t" .null (.str "p")]).first_seen
      (.num 1)).isSome = true ∧
    (lookupJ (parseDumpFiles [simpleDoc (.num 1) "t" .null (.str "p")]).tracks
      (.num 1)).isSome = true :=
  claim_C10 [simpleDoc (.num 1) "t" .null (.str "p")] (.num 1)
    (by
      have hsteps : parseDumpFiles [simpleDoc (.num 1) "t" .null (.str "p")]
          = processDoc initState (simpleDoc (.num 1) "t" .null (.str "p")) := rfl
      rw [hsteps, processDoc_simpleDoc initState (.num 1) "t" .null (.str "p") rfl false rfl]
      simp [truthy, lookupJ_setJ_isSome, initState, firstSeenUpd, lookupJ, setJ, pyOr])

/-- C4: after the run, LastSeen for X is the `played_at` of the
most-recently-processed event for X in scan order — line 108 overwrites it
unconditionally, with no chronological comparison; the hypothesis on `post`
says exactly that no later document carries an event for X. -/
theorem claim_C4 (pre post : List Json) (x p : Json) (t : String)
    (hx : truthy x = true) (hp : truthy p = true)
    (hpost : ∀ d ∈ post, ∀ st : ParserState,
      lookupJ (processDoc st d).last_seen x = lookupJ st.last_seen x) :
    lookupJ (parseDumpFiles (pre ++ simpleDoc x t .null p :: post)).last_seen x
      = some p := by
  unfold parseDumpFiles
  rw [processDocs_append]
  have hshow : processDocs (processDocs initState pre) (simpleDoc x t .null p :: post)
      = processDocs (processDoc (processDocs initState pre) (simpleDoc x t .null p)) post := rfl
  rw [hshow]
  have hafter : lookupJ (processDoc (processDocs initState pre)
      (simpleDoc x t .null p)).last_seen x = some p := by
    rw [processDoc_simpleDoc (processDocs initState pre) x t .null p hx false rfl]
    dsimp only
    rw [if_pos hp, pyOr_of_truthy _ hp, lookupJ_setJ]
    simp
  have hkeep : ∀ ds : List Json,
      (∀ d ∈ ds, ∀ st : ParserState,
        lookupJ (processDoc st d).last_seen x = lookupJ st.last_seen x) →
      ∀ st : ParserState,
        lookupJ (processDocs st ds).last_seen x = lookupJ st.last_seen x := by
    intro ds
    induction ds with
    | nil => intro _ st; rfl
    | cons d rest ih =>
      intro hds st
      have hstep : processDocs st (d :: rest) = processDocs (processDoc st d) rest := rfl
      rw [hstep, ih (fun d' hd' => hds d' (List.mem_cons_of_mem d hd')) (processDoc st d),
        hds d (List.mem_cons_self d rest)]
  rw [hkeep post hpost _, hafter]

/-- Witness for C4: the second event's timestamp is chronologically earlier,
yet LastSeen ends at it because it was processed last. -/
theorem claim_C4_witness :
    lookupJ (parseDumpFiles
        ([simpleDoc (.num 1) "t" .null (.str "2024-03-01T10:00:00Z")]
          ++ simpleDoc (.num 1) "t" .null (.str "2023-01-01T10:00:00Z") :: [])).last_seen
      (.num 1) = some (.str "2023-01-01T10:00:00Z") :=
  claim_C4 [simpleDoc (.num 1) "t" .null (.str "2024-03-01T10:00:00Z")] []
    (.num 1) (.str "2023-01-01T10:00:00Z") "t" rfl rfl (by simp)

/-- C3: first conjunct — with an existing FirstSeen value, an event replaces
it exactly when `firstSeenEarlier` holds; second conjunct —
`firstSeenEarlier` holds only when both values are strings that parse and
the new one is strictly earlier (so on any parse failure the stored value is
kept); third conjunct — the spec's concrete scenario: after `played_at`
"2024-03-01T10:00:00Z" then "2023-01-01T10:00:00Z", FirstSeen ends at the
2023 timestamp. -/
theorem claim_C3 :
    (∀ (st : ParserState) (x p cur : Json) (t : String),
      truthy x = true → truthy p = true →
      lookupJ st.first_seen x = some cur →
      lookupJ (processDoc st (simpleDoc x t .null p)).first_seen x
        = some (if firstSeenEarlier cur p then p else cur)) ∧
    (∀ cur p : Json, firstSeenEarlier cur p = true →
      ∃ (sc sp : String) (dc dp : PyDateTime),
        cur = .str sc ∧ p = .str sp ∧
        fromisoformat (zreplace sc) = some dc ∧
        fromisoformat (zreplace sp) = some dp ∧
        pyDtLt dp dc = some true) ∧
    (lookupJ (parseDumpFiles
        [simpleDoc (.num 1) "t" .null (.str "2024-03-01T10:00:00Z"),
         simpleDoc (.num 1) "t" .null (.str "2023-01-01T10:00:00Z")]).first_seen
      (.num 1) = some (.str "2023-01-01T10:00:00Z")) := by
  have hstep : ∀ (st : ParserState) (x p cur : Json) (t : String),
      truthy x = true → truthy p = true →
      lookupJ st.first_seen x = some cur →
      lookupJ (processDoc st (simpleDoc x t .null p)).first_seen x
        = some (if firstSeenEarlier cur p then p else cur) := by
    intro st x p cur t hx hp hcur
    rw [processDoc_simpleDoc st x t .null p hx false rfl]
    dsimp only
    rw [if_pos hp, pyOr_of_truthy _ hp]
    unfold firstSeenUpd
    rw [hcur]
    cases hf : firstSeenEarlier cur p with
    | true => simp [hf, lookupJ_setJ]
    | false => simp [hf, hcur]
  refine ⟨hstep, ?_, ?_⟩
  · intro cur p h
    cases cur with
    | str sc =>
      cases p with
      | str sp =>
        refine ⟨sc, sp, ?_⟩
        cases hdc : fromisoformat (zreplace sc) with
        | none => simp [firstSeenEarlier, hdc] at h
        | some dc =>
          cases hdp : fromisoformat (zreplace sp) with
          | none => simp [firstSeenEarlier, hdc, hdp] at h
          | some dp =>
            cases hlt : pyDtLt dp dc with
            | none => simp [firstSeenEarlier, hdc, hdp, hlt] at h
            | some b =>
              cases b with
              | false => simp [firstSeenEarlier, hdc, hdp, hlt] at h
              | true => exact ⟨dc, dp, rfl, rfl, rfl, rfl, hlt⟩
      | null => simp [firstSeenEarlier] at h
      | bool b => simp [firstSeenEarlier] at h
      | num n => simp [firstSeenEarlier] at h
      | arr xs => simp [firstSeenEarlier] at h
      | obj kvs => simp [firstSeenEarlier] at h
    | null => simp [firstSeenEarlier] at h
    | bool b => simp [firstSeenEarlier] at h
    | num n => simp [firstSeenEarlier] at h
    | arr xs => simp [firstSeenEarlier] at h
    | obj kvs => simp [firstSeenEarlier] at h
  · have hsteps : parseDumpFiles
        [simpleDoc (.num 1) "t" .null (.str "2024-03-01T10:00:00Z"),
         simpleDoc (.num 1) "t" .null (.str "2023-01-01T10:00:00Z")]
        = processDoc (processDoc initState
            (simpleDoc (.num 1) "t" .null (.str "2024-03-01T10:00:00Z")))
          (simpleDoc (.num 1) "t" .null (.str "2023-01-01T10:00:00Z")) := rfl
    have h1 : lookupJ (processDoc initState
        (simpleDoc (.num 1) "t" .null (.str "2024-03-01T10:00:00Z"))).first_seen
        (.num 1) = some (.str "2024-03-01T10:00:00Z") := by
      rw [processDoc_simpleDoc initState (.num 1) "t" .null
        (.str "2024-03-01T10:00:00Z") rfl false rfl]
      simp [truthy, firstSeenUpd, initState, lookupJ, setJ, pyOr]
    rw [hsteps, hstep _ (.num 1) (.str "2023-01-01T10:00:00Z")
      (.str "2024-03-01T10:00:00Z") "t" rfl rfl h1]
    have hf : firstSeenEarlier (.str "2024-03-01T10:00:00Z")
        (.str "2023-01-01T10:00:00Z") = true := by decide
    rw [hf]
    rfl

/-- Witness for C3: the first conjunct applied after one processed event,
with a strictly earlier new timestamp. -/
theorem claim_C3_witness :
    lookupJ (processDoc
        (processDoc initState (simpleDoc (.num 1) "t" .null (.str "2024-03-01T10:00:00Z")))
        (simpleDoc (.num 1) "t" .null (.str "2023-01-01T10:00:00Z"))).first_seen (.num 1)
      = some (if firstSeenEarlier (.str "2024-03-01T10:00:00Z")
          (.str "2023-01-01T10:00:00Z") then .str "2023-01-01T10:00:00Z"
        else .str "2024-03-01T10:00:00Z") :=
  claim_C3.1 (processDoc initState (simpleDoc (.num 1) "t" .null
      (.str "2024-03-01T10:00:00Z")))
    (.num 1) (.str "2023-01-01T10:00:00Z") (.str "2024-03-01T10:00:00Z") "t"
    rfl rfl
    (by
      rw [processDoc_simpleDoc initState (.num 1) "t" .null
        (.str "2024-03-01T10:00:00Z") rfl false rfl]
      simp [truthy, firstSeenUpd, initState, lookupJ, setJ, pyOr])

/-- The maximum of the positive values in a list, as the claim states it:
zero and absent (and negative) values are ignored; `none` when no positive
value was observed. -/
def posMax (cs : List Int) : Option Int :=
  match cs.filter (fun c => decide (0 < c)) with
  | [] => none
  | c :: rest => some (rest.foldl max c)

/-- One play-count document moves the table by the high-water-mark rule. -/
theorem playCount_step (st : ParserState) (x : Json) (hx : truthy x = true)
    (c : Int) (t : String) :
    lookupJ (processDoc st (simpleDoc x t (.num c) .null)).play_counts x =
      (if 0 < c then some (max ((lookupJ st.play_counts x).getD 0) c)
       else lookupJ st.play_counts x) := by
  have hg : pyGtZero (pyOr (.num c) (.num 0)) = some (decide (0 < c)) := by
    by_cases h0 : c = 0
    · subst h0; rfl
    · have ht : truthy (Json.num c) = true := by simp [truthy, h0]
      simp [pyOr, ht, pyGtZero]
  rw [processDoc_simpleDoc st x t (.num c) .null hx (decide (0 < c)) hg]
  dsimp only
  by_cases hc : 0 < c
  · have ht : truthy (Json.num c) = true := by
      simp [truthy]
      omega
    rw [if_pos (by simp [hc]), if_pos hc, pyOr_of_truthy _ ht]
    rw [lookupJ_setJ]
    simp [jsonToInt]
  · rw [if_neg (by simp [hc]), if_neg hc]

/-- The play-count table evolution over a corpus of play-count documents. -/
def accMax (acc : Option Int) : List Int → Option Int
  | [] => acc
  | c :: rest => accMax (if 0 < c then some (max (acc.getD 0) c) else acc) rest

theorem playCount_run (x : Json) (hx : truthy x = true) (t : String) :
    ∀ (cs : List Int) (st : ParserState),
      lookupJ (processDocs st
          (cs.map (fun c => simpleDoc x t (.num c) .null))).play_counts x
        = accMax (lookupJ st.play_counts x) cs := by
  intro cs
  induction cs with
  | nil => intro st; rfl
  | cons c rest ih =>
    intro st
    have hstep : processDocs st
        ((c :: rest).map (fun c => simpleDoc x t (.num c) .null))
        = processDocs (processDoc st (simpleDoc x t (.num c) .null))
            (rest.map (fun c => simpleDoc x t (.num c) .null)) := rfl
    rw [hstep, ih (processDoc st (simpleDoc x t (.num c) .null)),
      playCount_step st x hx c t]
    rfl

theorem accMax_some : ∀ (cs : List Int) (a : Int),
    accMax (some a) cs = some ((cs.filter (fun c => decide (0 < c))).foldl max a) := by
  intro cs
  induction cs with
  | nil => intro a; rfl
  | cons c rest ih =>
    intro a
    by_cases hc : 0 < c
    · simp [accMax, hc, List.filter_cons, ih, List.foldl_cons]
    · simp [accMax, hc, List.filter_cons, ih]

theorem accMax_none_eq_posMax : ∀ cs : List Int, accMax none cs = posMax cs := by
  intro cs
  induction cs with
  | nil => rfl
  | cons c rest ih =>
    by_cases hc : 0 < c
    · have h0 : max (0 : Int) c = c := max_eq_right hc.le
      simp [accMax, posMax, hc, accMax_some, List.filter_cons, h0]
    · simp only [accMax, posMax, List.filter_cons]
      have hd : decide (0 < c) = false := by simp [hc]
      simp only [hd, if_neg hc, Bool.false_eq_true, if_false, cond_false]
      exact ih

/-- C1: the `tracks` table holds exactly one TrackRecord per distinct id
(its keys are nodup after any corpus), and over any number of documents
reporting the same id, PlayCount for that id is the maximum of the observed
positive play-count values — never their sum — with zero, negative and
absent values ignored (`none` when no positive value was seen). -/
theorem claim_C1 :
    (∀ docs : List Json, ((parseDumpFiles docs).tracks.map Prod.fst).Nodup) ∧
    (∀ (x : Json) (t : String) (cs : List Int), truthy x = true →
      lookupJ (parseDumpFiles
          (cs.map (fun c => simpleDoc x t (.num c) .null))).play_counts x
        = posMax cs) := by
  constructor
  · intro docs
    unfold parseDumpFiles
    refine processDocs_preserves (fun st => (st.tracks.map Prod.fst).Nodup) ?_
      docs initState (by simp [initState])
    intro kvs u st h
    unfold recordStep
    cases hco : candidateOf kvs with
    | skip => exact h
    | fail => exact h
    | fields c =>
      change ((applyCandidate c u st).1.tracks.map Prod.fst).Nodup
      have hins : ((insertTrack st c).tracks.map Prod.fst).Nodup := by
        unfold insertTrack
        split_ifs with hN
        · rw [List.map_append, List.nodup_append]
          refine ⟨h, by simp, ?_⟩
          intro a ha hb
          simp only [List.map_cons, List.map_nil, List.mem_singleton] at hb
          subst hb
          have : lookupJ st.tracks c.track_id = none := by
            cases hq : lookupJ st.tracks c.track_id
            · rfl
            · rw [hq] at hN; simp at hN
          rw [lookupJ_eq_none_iff] at this
          exact this ha
        · exact h
      cases hg : pyGtZero c.play_count with
      | none => rw [applyCandidate_fail c u st hg]; exact hins
      | some gt => rw [applyCandidate_eq c u st gt hg]; exact hins
  · intro x t cs hx
    unfold parseDumpFiles
    rw [playCount_run x hx t cs initState]
    exact accMax_none_eq_posMax cs

/-- Witness for C1: five documents for id 7 with counts 3, 0, 5, -2, 4 give
PlayCount 5 — the maximum positive value, not the sum. -/
theorem claim_C1_witness :
    lookupJ (parseDumpFiles ([3, 0, 5, -2, 4].map
        (fun c => simpleDoc (.num 7) "t" (.num c) .null))).play_counts (.num 7)
      = some 5 :=
  (claim_C1.2 (.num 7) "t" [3, 0, 5, -2, 4] rfl).trans (by decide)

/-- C8: the ranked track list is sorted by `play_count` in descending order,
and the rows with any given `play_count` appear in exactly the order of
`tracksList` — which lists `self.tracks` in insertion order, i.e. the order
in which the track ids were first encountered (`list.sort` is stable, and
`reverse=True` reverses the comparison, not the result). -/
theorem claim_C8 (st : ParserState) :
    ((topTracksRows st).Pairwise (fun a b => b.play_count ≤ a.play_count)) ∧
    (∀ c : Int, (topTracksRows st).filter (fun r => decide (r.play_count = c))
      = (tracksList st).filter (fun r => decide (r.play_count = c))) := by
  have htrans : ∀ (a b c : TopRow),
      (fun a b : TopRow => decide (b.play_count ≤ a.play_count)) a b = true →
      (fun a b : TopRow => decide (b.play_count ≤ a.play_count)) b c = true →
      (fun a b : TopRow => decide (b.play_count ≤ a.play_count)) a c = true := by
    intro a b c h1 h2
    simp only [decide_eq_true_eq] at h1 h2 ⊢
    exact le_trans h2 h1
  have htotal : ∀ (a b : TopRow),
      ((fun a b : TopRow => decide (b.play_count ≤ a.play_count)) a b
        || (fun a b : TopRow => decide (b.play_count ≤ a.play_count)) b a) = true := by
    intro a b
    rcases le_total a.play_count b.play_count with h | h <;> simp [h]
  constructor
  · have hs := List.sorted_mergeSort htrans htotal (tracksList st)
    exact hs.imp (fun hab => by simpa using hab)
  · intro c
    have hpair : ((tracksList st).filter
        (fun r => decide (r.play_count = c))).Pairwise
        (fun a b : TopRow => decide (b.play_count ≤ a.play_count) = true) := by
      apply List.pairwise_of_forall_mem_list
      intro a ha b hb
      have hac : a.play_count = c := by
        simpa using (List.mem_filter.mp ha).2
      have hbc : b.play_count = c := by
        simpa using (List.mem_filter.mp hb).2
      simp [hac, hbc]
    have hsub : List.Sublist
        ((tracksList st).filter (fun r => decide (r.play_count = c)))
        (topTracksRows st) :=
      List.sublist_mergeSort htrans htotal hpair (List.filter_sublist _)
    have hsub2 : List.Sublist
        ((tracksList st).filter (fun r => decide (r.play_count = c)))
        ((topTracksRows st).filter (fun r => decide (r.play_count = c))) := by
      have := hsub.filter (fun r => decide (r.play_count = c))
      rwa [List.filter_filter, show
        (fun r : TopRow => decide (r.play_count = c) && decide (r.play_count = c))
          = fun r : TopRow => decide (r.play_count = c) from funext fun r => Bool.and_self _]
        at this
    have hperm : List.Perm
        ((topTracksRows st).filter (fun r => decide (r.play_count = c)))
        ((tracksList st).filter (fun r => decide (r.play_count = c))) :=
      (List.mergeSort_perm (tracksList st) _).filter _
    exact ((hsub2.eq_of_length hperm.length_eq.symm).symm)

end Scrap
